import Mathlib

/-!
A shallow embedding of the client-side request/response pipeline of the
hyper HTTP library (HTTP/1.x request lifecycle in `src/client/request.rs`,
the `HttpMessage` downcast machinery in `src/message.rs`, and the HTTP/2
adapter in `src/http2.rs`), together with theorems settling the spec's
claims against it.

Bytes on the wire are modelled as `String` (one character per byte for all
inputs considered here).  Fallible Rust functions returning `HttpResult`
become `Except HttpError`; a Rust panic (`unwrap` on an error) is modelled
by the dedicated `Exec.panicked` outcome.
-/

namespace Hyper

/-- CRLF, the `LINE_ENDING` constant of `src/http.rs`. -/
def LINE_ENDING : String := "\r\n"

/-- HTTP methods (`method::Method`); the closed set of variants used here. -/
inductive Method
  | get
  | head
  | post
  | put
  | delete
  | options
  deriving DecidableEq

/-- The serialization of a method, as produced by its `Display` impl. -/
def Method.toS : Method → String
  | .get => "GET"
  | .head => "HEAD"
  | .post => "POST"
  | .put => "PUT"
  | .delete => "DELETE"
  | .options => "OPTIONS"

/-- HTTP versions (`version::HttpVersion`). -/
inductive HttpVersion
  | http10
  | http11
  deriving DecidableEq

/-- The serialization of a version, as produced by its `Display` impl. -/
def HttpVersion.toS : HttpVersion → String
  | .http10 => "HTTP/1.0"
  | .http11 => "HTTP/1.1"

/-- Transfer codings (`header::Encoding`). -/
inductive Encoding
  | chunked
  | gzip
  | deflate
  | identity
  deriving DecidableEq

/-- Serialization of a transfer coding token. -/
def Encoding.toS : Encoding → String
  | .chunked => "chunked"
  | .gzip => "gzip"
  | .deflate => "deflate"
  | .identity => "identity"

/-- Modelled from the spec: the values a header entry can hold.  The header
collection (`header::Headers`, not under `src/`) is an opaque ordered
multimap with typed accessors for the well-known fields Host,
Content-Length and Transfer-Encoding, plus raw byte-vector fields. -/
inductive HeaderValue
  | host (hostname : String) (port : Option Nat)
  | contentLength (n : Nat)
  | transferEncoding (encodings : List Encoding)
  | raw (values : List String)
  deriving DecidableEq

/-- Modelled from the spec: serialization of a header value.  A Host header
whose port is the scheme default (80/443) serializes as the bare hostname,
matching the spec scenario where `http://example.dom` yields
`Host: example.dom`. -/
def HeaderValue.toS : HeaderValue → String
  | .host h p =>
      if p = none ∨ p = some 80 ∨ p = some 443 then h
      else h ++ ":" ++ toString (p.getD 0)
  | .contentLength n => toString n
  | .transferEncoding l => String.intercalate ", " (l.map Encoding.toS)
  | .raw vs => String.intercalate ", " vs

/-- ASCII lower-casing of one character. -/
def lowerChar (c : Char) : Char :=
  if 65 ≤ c.toNat ∧ c.toNat ≤ 90 then Char.ofNat (c.toNat + 32) else c

/-- Case-insensitive equality of header field names. -/
def nameEq (a b : String) : Bool := a.data.map lowerChar == b.data.map lowerChar

/-- Modelled from the spec: `header::Headers` (not under `src/`), an ordered,
case-insensitive multimap; insertion order among distinct keys is preserved
for serialization determinism. -/
structure Headers where
  entries : List (String × HeaderValue)
  deriving DecidableEq

/-- `Headers::new()`. -/
def Headers.new : Headers := ⟨[]⟩

/-- Modelled from the spec: `set` replaces the value stored under a
case-insensitively matching key in place, or appends a fresh entry. -/
def Headers.set (hs : Headers) (name : String) (v : HeaderValue) : Headers :=
  if hs.entries.any (fun e => nameEq e.1 name) then
    ⟨hs.entries.map (fun e => if nameEq e.1 name then (e.1, v) else e)⟩
  else
    ⟨hs.entries ++ [(name, v)]⟩

/-- Does the collection hold a field with this (case-insensitive) name? -/
def Headers.hasField (hs : Headers) (name : String) : Bool :=
  hs.entries.any (fun e => nameEq e.1 name)

/-- Typed accessor: `headers.get::<ContentLength>()`. -/
def Headers.getContentLength (hs : Headers) : Option Nat :=
  match hs.entries.find? (fun e => nameEq e.1 "Content-Length") with
  | some (_, .contentLength n) => some n
  | _ => none

/-- Typed accessor: `headers.get::<TransferEncoding>()` (also standing in for
`get_mut`, whose in-place mutation is modelled by `setTransferEncoding`). -/
def Headers.getTransferEncoding (hs : Headers) : Option (List Encoding) :=
  match hs.entries.find? (fun e => nameEq e.1 "Transfer-Encoding") with
  | some (_, .transferEncoding l) => some l
  | _ => none

/-- Typed setter: `headers.set::<TransferEncoding>(..)`. -/
def Headers.setTransferEncoding (hs : Headers) (l : List Encoding) : Headers :=
  hs.set "Transfer-Encoding" (.transferEncoding l)

/-- Typed setter: `headers.set(Host { hostname, port })`. -/
def Headers.setHost (hs : Headers) (hostname : String) (port : Option Nat) : Headers :=
  hs.set "Host" (.host hostname port)

/-- `headers.set_raw(name, values)`. -/
def Headers.setRaw (hs : Headers) (name : String) (values : List String) : Headers :=
  hs.set name (.raw values)

/-- Modelled from the spec: the `Display` impl of `Headers` writes each header
as `Name: value CRLF` in insertion order. -/
def Headers.toS (hs : Headers) : String :=
  String.join (hs.entries.map (fun e => e.1 ++ ": " ++ e.2.toS ++ LINE_ENDING))

instance {ε α : Type} [DecidableEq ε] [DecidableEq α] :
    DecidableEq (Except ε α) := fun x y =>
  match x, y with
  | .ok a, .ok b =>
      if h : a = b then .isTrue (by rw [h])
      else .isFalse (fun hx => absurd (by injection hx) h)
  | .error a, .error b =>
      if h : a = b then .isTrue (by rw [h])
      else .isFalse (fun hx => absurd (by injection hx) h)
  | .ok _, .error _ => .isFalse (fun hx => Except.noConfusion hx)
  | .error _, .ok _ => .isFalse (fun hx => Except.noConfusion hx)

/-- Parses a decimal numeral, accumulator-style. -/
def parseNatAux : List Char → Nat → Option Nat
  | [], acc => some acc
  | c :: rest, acc =>
      if 48 ≤ c.toNat ∧ c.toNat ≤ 57 then
        parseNatAux rest (acc * 10 + (c.toNat - 48))
      else none

/-- Parses a string as a decimal number, as a status-code value is decoded. -/
def parseNat? (s : String) : Option Nat :=
  match s.data with
  | [] => none
  | l => parseNatAux l 0

/-- Errors (`HttpError`); only the distinctions the claims need. -/
inductive HttpError
  | io
  | invalidWrite
  | badUrl
  deriving DecidableEq

/-- The mock network stream used by the repo's own tests (`mock::MockStream`):
records every byte written; `failAfter = some k` makes the k-th subsequent
write call fail with an I/O error, `none` never fails. -/
structure MockStream where
  write : String := ""
  failAfter : Option Nat := none
  deriving DecidableEq

/-- One `write_all` call on the underlying stream. -/
def MockStream.writeAll (s : MockStream) (msg : String) : Except HttpError MockStream :=
  match s.failAfter with
  | none => .ok { s with write := s.write ++ msg }
  | some 0 => .error .io
  | some (n + 1) => .ok { write := s.write ++ msg, failAfter := some n }

/-- Modelled from the spec: `http::HttpWriter` (not under `src/`), the body
sink with one framing discipline per variant: Through applies no framing,
Empty rejects all writes (no bytes reach the transport), Sized forwards
writes verbatim, Chunked wraps each write as `<hex-length>CRLF<payload>CRLF`. -/
inductive HttpWriter
  | throughWriter (s : MockStream)
  | chunkedWriter (s : MockStream)
  | sizedWriter (s : MockStream) (len : Nat)
  | emptyWriter (s : MockStream)
  deriving DecidableEq

/-- `HttpWriter::into_inner`, recovering the underlying stream. -/
def HttpWriter.intoInner : HttpWriter → MockStream
  | .throughWriter s => s
  | .chunkedWriter s => s
  | .sizedWriter s _ => s
  | .emptyWriter s => s

/-- Hexadecimal rendering of a chunk length. -/
def hexString (n : Nat) : String :=
  String.mk ((Nat.toDigits 16 n).map Char.toUpper)

/-- Modelled from the spec: one `write` call through the body sink. -/
def HttpWriter.write : HttpWriter → String → Except HttpError HttpWriter
  | .throughWriter s, msg => (s.writeAll msg).map .throughWriter
  | .chunkedWriter s, msg =>
      (s.writeAll (hexString msg.length ++ LINE_ENDING ++ msg ++ LINE_ENDING)).map .chunkedWriter
  | .sizedWriter s n, msg => (s.writeAll msg).map (.sizedWriter · n)
  | .emptyWriter _, _ => .error .invalidWrite

/-- Modelled from the spec: `HttpWriter::end` finalizes the framing — Chunked
emits the terminating zero-length chunk `0 CRLF CRLF`; the other variants
are no-ops — and hands back the underlying stream. -/
def HttpWriter.endW : HttpWriter → Except HttpError MockStream
  | .chunkedWriter s => s.writeAll ("0" ++ LINE_ENDING ++ LINE_ENDING)
  | w => .ok w.intoInner

/-- The target URL, consumed as an opaque structure exposing
scheme/host/port/path/query (`url::Url` is an external collaborator). -/
structure Url where
  scheme : String
  host : String
  port : Option Nat
  path : List String
  query : Option String
  deriving DecidableEq

/-- `url.serialize_path()`: `/`-joined path components. -/
def Url.serializePath (u : Url) : String :=
  "/" ++ String.intercalate "/" u.path

/-- The request-URI built by `start()` (lines 126–131 of
`src/client/request.rs`): serialized path, with `?query` appended only when
a query is present. -/
def Url.requestUri (u : Url) : String :=
  u.serializePath ++ (match u.query with | some q => "?" ++ q | none => "")

/-- Scheme default port, as applied by `url.port_or_default()`. -/
def schemeDefaultPort : String → Option Nat
  | "http" => some 80
  | "https" => some 443
  | _ => none

/-- `client::get_host_and_port(&url)`. -/
def getHostAndPort (u : Url) : Except HttpError (String × Nat) :=
  match u.port.orElse (fun _ => schemeDefaultPort u.scheme) with
  | some p => .ok (u.host, p)
  | none => .error .badUrl

/-- Phase marker for a request not yet started (`net::Fresh`). -/
inductive Fresh
  | mk
  deriving DecidableEq

/-- Phase marker for a request whose head has been sent (`net::Streaming`). -/
inductive Streaming
  | mk
  deriving DecidableEq

/-- `client::request::Request<W>`: a client request to a remote server,
with a phantom phase marker `W`. -/
structure Request (W : Type) where
  url : Url
  version : HttpVersion
  body : HttpWriter
  headers : Headers
  method : Method
  deriving DecidableEq

/-- `Request::with_connector`, with the connector already resolved to the
mock stream it hands out: resolves host and port from the URL, sets the Host
header, and wraps the stream in a Through writer. -/
def Request.withConnector (method : Method) (url : Url) (stream : MockStream) :
    Except HttpError (Request Fresh) := do
  let (host, port) ← getHostAndPort url
  let headers := Headers.new.setHost host (some port)
  .ok { method := method, headers := headers, url := url,
        version := .http11, body := .throughWriter stream }

/-- The request line written by `start()`:
`METHOD SP path[?query] SP VERSION CRLF`. -/
def Request.requestLine (r : Request W) : String :=
  r.method.toS ++ " " ++ r.url.requestUri ++ " " ++ r.version.toS ++ LINE_ENDING

/-- `Request::<Fresh>::start` (lines 125–192 of `src/client/request.rs`):
writes the request line, decides the body framing from method and headers
(GET/HEAD ⇒ Empty; Content-Length present ⇒ Sized; else Chunked, appending
a `chunked` token to any existing Transfer-Encoding list or setting
`Transfer-Encoding: chunked`), writes the headers and the blank line, and
produces the Streaming request. -/
def Request.start (r : Request Fresh) : Except HttpError (Request Streaming) := do
  let body1 ← r.body.write r.requestLine
  if r.method = .get ∨ r.method = .head then
    let body2 ← body1.write (r.headers.toS ++ LINE_ENDING)
    .ok { url := r.url, version := r.version, method := r.method,
          headers := r.headers, body := .emptyWriter body2.intoInner }
  else
    -- The source tracks the decision in a `chunked` flag and a `len` local
    -- (a borrow-checker workaround, per its own comment); the flag is false
    -- exactly when a Content-Length header is present, which the embedding
    -- renders as this direct match.
    match r.headers.getContentLength with
    | some len => do
        let body2 ← body1.write (r.headers.toS ++ LINE_ENDING)
        .ok { url := r.url, version := r.version, method := r.method,
              headers := r.headers, body := .sizedWriter body2.intoInner len }
    | none => do
        let headers :=
          match r.headers.getTransferEncoding with
          | some encodings => r.headers.setTransferEncoding (encodings ++ [.chunked])
          | none => r.headers.setTransferEncoding [.chunked]
        let body2 ← body1.write (headers.toS ++ LINE_ENDING)
        .ok { url := r.url, version := r.version, method := r.method,
              headers := headers, body := .chunkedWriter body2.intoInner }

/-- One body write on a Streaming request (`impl Write for Request<Streaming>`). -/
def Request.writeBody (r : Request Streaming) (msg : String) :
    Except HttpError (Request Streaming) :=
  (r.body.write msg).map (fun b => { r with body := b })

/-- Modelled from the spec: the Response produced by `send()`
(`client::response` is not under `src/`); it keeps the raw stream the head
and body were written to. -/
structure Response where
  raw : MockStream
  deriving DecidableEq

/-- `Request::<Streaming>::send` (lines 203–207): finalizes the body writer
(`end()`, which for Chunked emits the terminating zero-length chunk) and
constructs a Response over the raw stream. -/
def Request.send (r : Request Streaming) : Except HttpError Response :=
  (r.body.endW).map Response.mk

/-! ### The `HttpMessage` downcast machinery (`src/message.rs`)

`HttpMessage` is a trait object carrying a `TypeId` tag of its underlying
concrete type; `is::<T>()` compares that tag with `TypeId::of::<T>()` and
`downcast::<T>()` performs the unchecked pointer cast only when `is::<T>()`
holds, returning the box intact otherwise.  The embedding closes the
universe of concrete implementations to the two the system has: the
HTTP/1.x message (bound to one raw stream) and the HTTP/2 message (bound to
a stream ID in a session). -/

/-- The HTTP/1.x concrete `HttpMessage` implementation. -/
structure Http11Message where
  stream : MockStream
  deriving DecidableEq

/-- The HTTP/2 concrete `HttpMessage` implementation. -/
structure Http2Message where
  streamId : Nat
  deriving DecidableEq

/-- `TypeId` over the closed universe of concrete message types. -/
inductive MsgTypeId
  | http11
  | http2
  deriving DecidableEq

/-- A boxed `HttpMessage` trait object: some concrete value, type-erased. -/
inductive BoxHttpMessage
  | h11 (m : Http11Message)
  | h2 (m : Http2Message)
  deriving DecidableEq

/-- `Typeable::get_type()`: the `TypeId` of the underlying concrete value. -/
def BoxHttpMessage.getType : BoxHttpMessage → MsgTypeId
  | .h11 _ => .http11
  | .h2 _ => .http2

/-- `HttpMessage::is::<T>()`: tag comparison (line 59 of `src/message.rs`). -/
def BoxHttpMessage.isType (b : BoxHttpMessage) (t : MsgTypeId) : Bool :=
  b.getType = t

/-- `downcast_unchecked::<Http11Message>`: the raw cast; yields a value only
when the underlying type really is HTTP/1.x (applying it otherwise would be
undefined behaviour in the source, hence `none`). -/
def BoxHttpMessage.downcastUncheckedH11 : BoxHttpMessage → Option Http11Message
  | .h11 m => some m
  | _ => none

/-- `downcast_unchecked::<Http2Message>`. -/
def BoxHttpMessage.downcastUncheckedH2 : BoxHttpMessage → Option Http2Message
  | .h2 m => some m
  | _ => none

/-- `HttpMessage::downcast::<Http11Message>` (lines 86–93): checked downcast;
on failure the original box is returned intact in the error. -/
def BoxHttpMessage.downcastH11 (b : BoxHttpMessage) :
    Except BoxHttpMessage Http11Message :=
  if b.isType .http11 then
    match b.downcastUncheckedH11 with
    | some m => .ok m
    | none => .error b
  else .error b

/-- `HttpMessage::downcast::<Http2Message>`. -/
def BoxHttpMessage.downcastH2 (b : BoxHttpMessage) :
    Except BoxHttpMessage Http2Message :=
  if b.isType .http2 then
    match b.downcastUncheckedH2 with
    | some m => .ok m
    | none => .error b
  else .error b

/-! ### The HTTP/2 adapter (`src/http2.rs`) -/

/-- The outcome of running a piece of Rust code that may panic: either the
value it returns, or a panic (an `unwrap` of an error). -/
inductive Exec (α : Type)
  | panicked
  | returns (a : α)
  deriving DecidableEq

/-- `solicit::http::StreamId`. -/
abbrev StreamId := Nat

/-- HTTP/2-level errors from the external `solicit` session. -/
inductive Http2Error
  | transport
  deriving DecidableEq

/-- Modelled from the spec: the raw HTTP/2 response handed back by
`solicit`'s `get_response` — the original header list (pseudo-headers
included, names beginning with `:`) and the fully buffered body. -/
structure RawHttp2Response where
  headers : List (String × String)
  body : String
  deriving DecidableEq

/-- Modelled from the spec: `solicit`'s `Response::status_code`, decoding the
numeric status from the reserved status pseudo-header. -/
def RawHttp2Response.statusCode (r : RawHttp2Response) : Option Nat :=
  (r.headers.find? (fun h => h.1 = ":status")).bind (fun h => parseNat? h.2)

/-- `Http2Client` (`src/http2.rs`, lines 31–87), with the external `solicit`
session modelled by a script: `request` logs the call and hands out the next
stream ID (failing when `requestError` is set); `getResponse` looks the
stream up in the scripted `responses`. -/
structure Http2Client where
  calls : List (String × String × List (String × String)) := []
  nextStreamId : StreamId := 1
  requestError : Bool := false
  responses : List (StreamId × RawHttp2Response) := []
  deriving DecidableEq

/-- `Http2Client::request` (lines 70–76): opens a new stream carrying a
headers-only request with the given method, path and extra headers. -/
def Http2Client.request (c : Http2Client) (method : String) (path : String)
    (extras : List (String × String)) : Except Http2Error (StreamId × Http2Client) :=
  if c.requestError then .error .transport
  else .ok (c.nextStreamId,
    { c with calls := c.calls ++ [(method, path, extras)],
             nextStreamId := c.nextStreamId + 2 })

/-- `Http2Client::get_response` (lines 81–86): blocks until the scripted full
response for the stream is available, or the session errors. -/
def Http2Client.getResponse (c : Http2Client) (sid : StreamId) :
    Except Http2Error RawHttp2Response :=
  match c.responses.lookup sid with
  | some r => .ok r
  | none => .error .transport

/-- `Http2Request<W>` (lines 92–99). -/
structure Http2Request (W : Type) where
  client : Http2Client
  headers : Headers
  streamId : Option StreamId
  method : Method
  url : Url
  deriving DecidableEq

/-- `Http2Request::<Fresh>::start` (lines 101–132): serializes the method and
the path (with query), issues `client.request(method, path, &[])` — note the
always-empty extra-headers list — and `unwrap`s the result, so a transport
error panics rather than being returned; on success the stream ID is
recorded and the request transitions to Streaming. -/
def Http2Request.start (r : Http2Request Fresh) :
    Exec (Except HttpError (Http2Request Streaming)) :=
  let methodBytes := r.method.toS
  let path := r.url.requestUri
  match r.client.request methodBytes path [] with
  | .error _ => .panicked
  | .ok (streamId, client) =>
      .returns (.ok { client := client, headers := r.headers,
                      streamId := some streamId, method := r.method,
                      url := r.url })

/-- An in-memory seekable byte source (`std::io::Cursor`). -/
structure Cursor where
  inner : String
  pos : Nat := 0
  deriving DecidableEq

/-- `Http2Response` (lines 137–143); the status is kept as its numeric code
(`status::StatusCode::from_u16` is external to `src/`). -/
structure Http2Response where
  client : Http2Client
  streamId : StreamId
  headers : Headers
  status : Nat
  body : Cursor
  deriving DecidableEq

/-- `Http2Response::new` (lines 146–183): `get_response` is `unwrap`ed (a
transport error panics), the numeric status is `unwrap`ed out of the status
pseudo-header (panicking when absent), every raw header whose name's first
byte is not `:` is copied into the Headers collection via `set_raw` with its
value as a single entry (indexing the first byte panics on an empty name),
and the fully received body is wrapped in a Cursor. -/
def Http2Response.new (client : Http2Client) (streamId : StreamId) :
    Exec Http2Response :=
  match client.getResponse streamId with
  | .error _ => .panicked
  | .ok resp =>
    match resp.statusCode with
    | none => .panicked
    | some status =>
      if resp.headers.any (fun h => h.1.isEmpty) then .panicked
      else
        let headers :=
          (resp.headers.filter (fun h => h.1.front ≠ ':')).foldl
            (fun hs h => hs.setRaw h.1 [h.2]) Headers.new
        .returns { status := status, client := client, streamId := streamId,
                   headers := headers, body := { inner := resp.body } }

/-! ### Concrete inputs used by counterexamples and witnesses -/

/-- The URL `http://example.dom/`. -/
def exUrl : Url :=
  { scheme := "http", host := "example.dom", port := none, path := [""], query := none }

/-- The URL `http://example.dom/submit`. -/
def exPostUrl : Url :=
  { scheme := "http", host := "example.dom", port := none, path := ["submit"], query := none }

/-- A fresh `GET http://example.dom/` request over a pristine mock stream,
whose caller then sets `Content-Length: 5` through `headers_mut()`. -/
def c1Fresh : Request Fresh :=
  { url := exUrl, version := .http11, body := .throughWriter {},
    headers := (Headers.new.setHost "example.dom" (some 80)).set
      "Content-Length" (.contentLength 5),
    method := .get }

/-- A fresh `GET http://example.dom/` request over a pristine mock stream,
exactly as `with_connector` builds it. -/
def exGetFresh : Request Fresh :=
  { url := exUrl, version := .http11, body := .throughWriter {},
    headers := Headers.new.setHost "example.dom" (some 80), method := .get }

/-- A fresh `POST http://example.dom/submit` request over a pristine mock
stream, exactly as `with_connector` builds it. -/
def exPostFresh : Request Fresh :=
  { url := exPostUrl, version := .http11, body := .throughWriter {},
    headers := Headers.new.setHost "example.dom" (some 80), method := .post }

/-- A raw HTTP/2 response with a status pseudo-header, another pseudo-header,
a repeated ordinary header, and a body. -/
def exRawResp : RawHttp2Response :=
  { headers := [(":status", "200"), ("x-header", "v1"),
                (":pseudo", "z"), ("x-header", "v2")],
    body := "hello" }

/-- An HTTP/2 client scripted with one complete response on stream 1. -/
def exHttp2Client : Http2Client := { responses := [(1, exRawResp)] }

/-- The `Http2Response` that `Http2Response::new` constructs from
`exHttp2Client`'s stream 1. -/
def exHttp2Res : Http2Response :=
  { client := exHttp2Client, streamId := 1,
    headers := ⟨[("x-header", .raw ["v2"])]⟩, status := 200,
    body := { inner := "hello" } }

/-- A fresh HTTP/2 request whose session's `request` call fails at the
transport level. -/
def c7Fresh : Http2Request Fresh :=
  { client := { requestError := true }, headers := Headers.new,
    streamId := none, method := .get, url := exUrl }

/-- A fresh `GET http://example.dom/` request over a transport that fails
its very first write. -/
def c5Fresh : Request Fresh :=
  { url := exUrl, version := .http11,
    body := .throughWriter { write := "", failAfter := some 0 },
    headers := Headers.new.setHost "example.dom" (some 80), method := .get }

/-- A fresh HTTP/2 request over a healthy session, carrying a caller-set
extra header that `start()` will never transmit. -/
def exHttp2Fresh : Http2Request Fresh :=
  { client := {}, headers := Headers.new.setRaw "x-custom" ["v"],
    streamId := none, method := .get, url := exPostUrl }

/-- The Streaming request `Http2Request::start` produces from
`exHttp2Fresh`. -/
def exHttp2Streaming : Http2Request Streaming :=
  { client := { calls := [("GET", "/submit", [])], nextStreamId := 3 },
    headers := Headers.new.setRaw "x-custom" ["v"],
    streamId := some 1, method := .get, url := exPostUrl }

/-- Splits a character stream at CRLF boundaries. -/
def splitLines : List Char → List (List Char)
  | [] => [[]]
  | '\r' :: '\n' :: rest => [] :: splitLines rest
  | c :: rest =>
    match splitLines rest with
    | [] => [[c]]
    | l :: ls => (c :: l) :: ls

/-- Does a serialized head contain a header field with the given name, i.e.
a CRLF-separated line starting (case-insensitively) with `name: `? -/
def containsFieldLine (head : String) (name : String) : Bool :=
  (splitLines head.data).any
    (fun line =>
      ((name.data ++ [':', ' ']).map lowerChar).isPrefixOf (line.map lowerChar))

/-- An entry of a Headers collection originating from the raw HTTP/2 header
list `S`: its stored name is non-pseudo, and it holds, as a single raw
entry, the value of some non-pseudo raw header of `S` with a
case-insensitively matching name. -/
def entryFrom (S : List (String × String)) (e : String × HeaderValue) : Prop :=
  e.1.front ≠ ':' ∧
  ∃ n v, (n, v) ∈ S ∧ nameEq e.1 n = true ∧ n.front ≠ ':' ∧ e.2 = .raw [v]

/-! ## Lemmas about the transport and the header collection -/

theorem ne_error_of_isOk {ε α : Type} {x : Except ε α} (h : x.isOk = true)
    (e : ε) : x ≠ .error e := by
  cases x <;> simp_all [Except.isOk, Except.toBool]

theorem MockStream.writeAll_ok_write {s s' : MockStream} {msg : String}
    (h : s.writeAll msg = .ok s') : s'.write = s.write ++ msg := by
  unfold MockStream.writeAll at h
  split at h <;> simp_all <;> (subst h; rfl)

theorem nameEq_refl (a : String) : nameEq a a = true := by
  simp [nameEq]

theorem Headers.hasField_set_self (hs : Headers) (n : String) (v : HeaderValue) :
    (hs.set n v).hasField n = true := by
  unfold Headers.set Headers.hasField
  by_cases hany : hs.entries.any (fun e => nameEq e.1 n) = true
  · rw [if_pos hany]
    obtain ⟨e0, hm, he⟩ := List.any_eq_true.mp hany
    exact List.any_eq_true.mpr
      ⟨if nameEq e0.1 n then (e0.1, v) else e0, List.mem_map_of_mem _ hm, by simp [he]⟩
  · rw [if_neg hany]
    simp [List.any_append, nameEq_refl]

theorem Headers.hasField_set_of (hs : Headers) {m : String} (n : String)
    (v : HeaderValue) (h : hs.hasField m = true) :
    (hs.set n v).hasField m = true := by
  unfold Headers.set Headers.hasField at *
  by_cases hany : hs.entries.any (fun e => nameEq e.1 n) = true
  · rw [if_pos hany]
    obtain ⟨e0, hm, he⟩ := List.any_eq_true.mp h
    refine List.any_eq_true.mpr
      ⟨if nameEq e0.1 n then (e0.1, v) else e0, List.mem_map_of_mem _ hm, ?_⟩
    by_cases hq : nameEq e0.1 n = true <;> simp [hq, he]
  · rw [if_neg hany]
    simp only [List.any_append, h, Bool.true_or]

theorem Headers.getTransferEncoding_setTransferEncoding (hs : Headers)
    (l : List Encoding) :
    (hs.setTransferEncoding l).getTransferEncoding = some l := by
  unfold Headers.setTransferEncoding Headers.set Headers.getTransferEncoding
  by_cases hany : hs.entries.any (fun e => nameEq e.1 "Transfer-Encoding") = true
  · rw [if_pos hany]
    have hpf : ((fun e : String × HeaderValue => nameEq e.1 "Transfer-Encoding") ∘
        (fun e : String × HeaderValue =>
          if nameEq e.1 "Transfer-Encoding" then (e.1, HeaderValue.transferEncoding l)
          else e)) = fun e => nameEq e.1 "Transfer-Encoding" := by
      funext e
      by_cases hq : nameEq e.1 "Transfer-Encoding" = true <;> simp [hq]
    obtain ⟨e0, hm, he⟩ := List.any_eq_true.mp hany
    have hsome : (hs.entries.find?
        (fun e => nameEq e.1 "Transfer-Encoding")).isSome = true :=
      List.find?_isSome.mpr ⟨e0, hm, he⟩
    obtain ⟨a, ha⟩ := Option.isSome_iff_exists.mp hsome
    have hqa := List.find?_some ha
    rw [List.find?_map, hpf, ha]
    simp [hqa]
  · rw [if_neg hany]
    have hnone : hs.entries.find? (fun e => nameEq e.1 "Transfer-Encoding") = none := by
      rw [List.find?_eq_none]
      intro x hx hpx
      exact hany (List.any_eq_true.mpr ⟨x, hx, hpx⟩)
    rw [List.find?_append, hnone]
    simp [nameEq_refl]

theorem Headers.hasField_foldl_setRaw_of {L : List (String × String)}
    (hs : Headers) {m : String} (h : hs.hasField m = true) :
    (L.foldl (fun acc p => acc.setRaw p.1 [p.2]) hs).hasField m = true := by
  induction L generalizing hs with
  | nil => exact h
  | cons x L ih => exact ih _ (Headers.hasField_set_of _ _ _ h)

theorem Headers.hasField_foldl_setRaw_mem {L : List (String × String)}
    (hs : Headers) {p : String × String} (hp : p ∈ L) :
    (L.foldl (fun acc q => acc.setRaw q.1 [q.2]) hs).hasField p.1 = true := by
  induction L generalizing hs with
  | nil => cases hp
  | cons x L ih =>
    rcases List.mem_cons.mp hp with h | h
    · subst h
      rw [List.foldl_cons]
      exact Headers.hasField_foldl_setRaw_of _ (Headers.hasField_set_self _ _ _)
    · exact ih _ h

theorem Headers.entryFrom_setRaw {S : List (String × String)} {hs : Headers}
    (hinv : ∀ e ∈ hs.entries, entryFrom S e) {p : String × String}
    (hp : p ∈ S) (hpf : p.1.front ≠ ':') :
    ∀ e ∈ (hs.setRaw p.1 [p.2]).entries, entryFrom S e := by
  intro e he
  unfold Headers.setRaw Headers.set at he
  by_cases hany : hs.entries.any (fun x => nameEq x.1 p.1) = true
  · rw [if_pos hany] at he
    simp only [List.mem_map] at he
    obtain ⟨e0, he0, rfl⟩ := he
    by_cases hq : nameEq e0.1 p.1 = true
    · rw [if_pos hq]
      exact ⟨(hinv e0 he0).1, p.1, p.2, hp, hq, hpf, rfl⟩
    · rw [if_neg hq]
      exact hinv e0 he0
  · rw [if_neg hany] at he
    rcases List.mem_append.mp he with h | h
    · exact hinv e h
    · simp only [List.mem_singleton] at h
      subst h
      exact ⟨hpf, p.1, p.2, hp, nameEq_refl _, hpf, rfl⟩

theorem Headers.entryFrom_foldl {S L : List (String × String)} {hs : Headers}
    (hinv : ∀ e ∈ hs.entries, entryFrom S e)
    (hL : ∀ p ∈ L, p ∈ S ∧ p.1.front ≠ ':') :
    ∀ e ∈ (L.foldl (fun acc q => acc.setRaw q.1 [q.2]) hs).entries,
      entryFrom S e := by
  induction L generalizing hs with
  | nil => exact hinv
  | cons x L ih =>
    have hx := hL x (List.mem_cons_self _ _)
    exact ih (Headers.entryFrom_setRaw hinv hx.1 hx.2)
      (fun p hp => hL p (List.mem_cons_of_mem _ hp))

/-! ## Claim theorems -/

/-- C10: when `start()` succeeds, the Streaming request keeps the Fresh
request's method, URL and HTTP version; its headers equal the Fresh headers
except that the chunked-framing branch (non-GET/HEAD method, no
Content-Length) appends a `chunked` token to an existing Transfer-Encoding
list or sets `Transfer-Encoding: chunked`; no other request field changes. -/
theorem claim_C10 (r : Request Fresh) (s : Request Streaming)
    (hstart : r.start = .ok s) :
    s.method = r.method ∧ s.url = r.url ∧ s.version = r.version ∧
    (if r.method = .get ∨ r.method = .head ∨ (r.headers.getContentLength).isSome then
       s.headers = r.headers
     else
       s.headers = match r.headers.getTransferEncoding with
         | some l => r.headers.setTransferEncoding (l ++ [.chunked])
         | none => r.headers.setTransferEncoding [.chunked]) := by
  unfold Request.start at hstart
  cases hw1 : r.body.write r.requestLine with
  | error e =>
    rw [hw1] at hstart
    simp [Bind.bind, Except.bind] at hstart
  | ok body1 =>
    rw [hw1] at hstart
    simp only [Bind.bind, Except.bind] at hstart
    split at hstart
    case isTrue hm =>
      split at hstart
      · exact absurd hstart (by simp)
      · injection hstart with hs
        subst hs
        exact ⟨rfl, rfl, rfl,
          by rw [if_pos (hm.elim Or.inl (fun h => Or.inr (Or.inl h)))]⟩
    case isFalse hm =>
      split at hstart
      case h_1 len hcl =>
        split at hstart
        · exact absurd hstart (by simp)
        · injection hstart with hs
          subst hs
          exact ⟨rfl, rfl, rfl,
            by rw [if_pos (Or.inr (Or.inr (by rw [hcl]; rfl)))]⟩
      case h_2 hcl =>
        split at hstart
        · exact absurd hstart (by simp)
        · injection hstart with hs
          subst hs
          refine ⟨rfl, rfl, rfl, ?_⟩
          rw [if_neg (by simp [hm, hcl])]

/-- C10 witness: the frame condition, instantiated at the concrete
`POST http://example.dom/submit` request. -/
theorem claim_C10_witness :
    (exPostFresh.start.map Request.method = .ok Method.post) ∧
    ∃ s, exPostFresh.start = .ok s ∧ s.method = exPostFresh.method ∧
      s.url = exPostFresh.url ∧ s.version = exPostFresh.version := by
  refine ⟨rfl, ?_⟩
  cases hstart : exPostFresh.start with
  | error e => exact absurd hstart (ne_error_of_isOk (by decide) e)
  | ok s =>
    obtain ⟨h1, h2, h3, _⟩ := claim_C10 exPostFresh s hstart
    exact ⟨s, rfl, h1, h2, h3⟩

/-- C1 (amended): for a GET or HEAD request whose headers carry no
Content-Length and no Transfer-Encoding field (as holds for a freshly
constructed request), the head serialized by `start()` is the request line
followed by exactly those headers — hence contains neither field — and every
subsequent body write through the Empty sink is rejected with an error, so
no body bytes reach the transport. -/
theorem claim_C1 (r : Request Fresh) (st : MockStream) (s : Request Streaming)
    (hm : r.method = .get ∨ r.method = .head)
    (hb : r.body = .throughWriter st) (hf : st.failAfter = none)
    (hcl : r.headers.hasField "Content-Length" = false)
    (hte : r.headers.hasField "Transfer-Encoding" = false)
    (hstart : r.start = .ok s) :
    s.headers = r.headers ∧
    s.headers.hasField "Content-Length" = false ∧
    s.headers.hasField "Transfer-Encoding" = false ∧
    s.body = .emptyWriter
      { write := st.write ++ r.requestLine ++ (r.headers.toS ++ LINE_ENDING),
        failAfter := none } ∧
    (∀ msg, s.writeBody msg = .error .invalidWrite) := by
  obtain ⟨sw, sf⟩ := st
  simp only at hf
  subst hf
  obtain ⟨u, v, b, hdrs, m⟩ := r
  simp only at hb
  subst hb
  simp only at hm hcl hte ⊢
  unfold Request.start at hstart
  simp only [HttpWriter.write, MockStream.writeAll, Bind.bind, Except.bind,
    Except.map] at hstart
  rw [if_pos hm] at hstart
  simp only [HttpWriter.intoInner] at hstart
  injection hstart with hs
  subst hs
  refine ⟨rfl, hcl, hte, rfl, fun msg => rfl⟩

/-- C1 witness: the amended statement instantiated at the concrete fresh
`GET http://example.dom/` request. -/
theorem claim_C1_witness :
    ∃ s, exGetFresh.start = .ok s ∧ s.headers = exGetFresh.headers ∧
      s.headers.hasField "Content-Length" = false ∧
      s.headers.hasField "Transfer-Encoding" = false ∧
      s.writeBody "x" = .error .invalidWrite := by
  cases hstart : exGetFresh.start with
  | error e => exact absurd hstart (ne_error_of_isOk (by decide) e)
  | ok s =>
    obtain ⟨h1, h2, h3, _, h5⟩ := claim_C1 exGetFresh {} s (Or.inl rfl) rfl rfl
      (by decide) (by decide) hstart
    exact ⟨s, rfl, h1, h2, h3, h5 "x"⟩

/-- C1 counterexample: the claim as stated is false — for a GET request on
which the caller has set `Content-Length: 5`, `start()` succeeds and the
serialized head written to the transport does contain a Content-Length
field (the GET/HEAD branch serializes the headers untouched). -/
theorem claim_C1_counterexample :
    c1Fresh.method = .get ∧
    c1Fresh.start.map (fun s => s.body.intoInner.write) =
      .ok ("GET / HTTP/1.1" ++ LINE_ENDING ++ "Host: example.dom" ++
        LINE_ENDING ++ "Content-Length: 5" ++ LINE_ENDING ++ LINE_ENDING) ∧
    c1Fresh.start.map
      (fun s => containsFieldLine s.body.intoInner.write "Content-Length") =
      .ok true := by
  refine ⟨rfl, rfl, rfl⟩

/-- C2: for a non-GET/HEAD request with no Content-Length header at
`start()`, the chosen framing is Chunked; when no Transfer-Encoding header
existed the headers now hold `Transfer-Encoding` equal to exactly `chunked`;
when one existed, a `chunked` token is appended to its list with no
duplicate check; and `send()` emits the terminating zero-length chunk. -/
theorem claim_C2 (r : Request Fresh) (s : Request Streaming)
    (hm : ¬(r.method = .get ∨ r.method = .head))
    (hcl : r.headers.getContentLength = none)
    (hstart : r.start = .ok s) :
    (∃ st, s.body = .chunkedWriter st) ∧
    (r.headers.getTransferEncoding = none →
       s.headers.getTransferEncoding = some [.chunked]) ∧
    (∀ l, r.headers.getTransferEncoding = some l →
       s.headers.getTransferEncoding = some (l ++ [.chunked])) ∧
    (∀ t, s.send = .ok t →
       t.raw.write = s.body.intoInner.write ++ ("0" ++ LINE_ENDING ++ LINE_ENDING)) := by
  unfold Request.start at hstart
  cases hw1 : r.body.write r.requestLine with
  | error e =>
    rw [hw1] at hstart
    simp [Bind.bind, Except.bind] at hstart
  | ok body1 =>
    rw [hw1] at hstart
    simp only [Bind.bind, Except.bind] at hstart
    rw [if_neg hm] at hstart
    rw [hcl] at hstart
    simp only [] at hstart
    split at hstart
    · exact absurd hstart (by simp)
    case h_2 body2 hw2 =>
      injection hstart with hs
      subst hs
      refine ⟨⟨body2.intoInner, rfl⟩, ?_, ?_, ?_⟩
      · intro h
        simp only [h]
        exact Headers.getTransferEncoding_setTransferEncoding _ _
      · intro l h
        simp only [h]
        exact Headers.getTransferEncoding_setTransferEncoding _ _
      · intro t hsend
        unfold Request.send HttpWriter.endW at hsend
        simp only [Except.map] at hsend
        cases hw3 : body2.intoInner.writeAll ("0" ++ LINE_ENDING ++ LINE_ENDING) with
        | error e => rw [hw3] at hsend; exact absurd hsend (by simp)
        | ok u =>
          rw [hw3] at hsend
          injection hsend with ht
          subst ht
          simpa using MockStream.writeAll_ok_write hw3

/-- C2 witness: the chunked branch instantiated at the concrete
`POST http://example.dom/submit` request — with no caller-set header the
headers after `start()` hold exactly `Transfer-Encoding: chunked`, and with
a pre-existing `Transfer-Encoding: chunked` a duplicate token is appended. -/
theorem claim_C2_witness :
    (∃ s, exPostFresh.start = .ok s ∧
      s.headers.getTransferEncoding = some [.chunked] ∧
      ∃ st, s.body = .chunkedWriter st) ∧
    (∃ s, Request.start
        { exPostFresh with
          headers := exPostFresh.headers.setTransferEncoding [.chunked] } = .ok s ∧
      s.headers.getTransferEncoding = some [.chunked, .chunked]) := by
  constructor
  · cases hstart : exPostFresh.start with
    | error e => exact absurd hstart (ne_error_of_isOk (by decide) e)
    | ok s =>
      obtain ⟨hbody, hnone, _, _⟩ := claim_C2 exPostFresh s (by decide) (by decide) hstart
      exact ⟨s, rfl, hnone (by decide), hbody⟩
  · cases hstart : Request.start
        { exPostFresh with
          headers := exPostFresh.headers.setTransferEncoding [.chunked] } with
    | error e => exact absurd hstart (ne_error_of_isOk (by decide) e)
    | ok s =>
      obtain ⟨_, _, hsome, _⟩ := claim_C2 _ s (by decide) (by decide) hstart
      exact ⟨s, rfl, hsome [.chunked] (by decide)⟩

/-- C3: for a non-GET/HEAD request with a caller-set `Content-Length: N`,
`start()` chooses Sized(N) framing, leaves the headers entirely unchanged
(in particular adds no Transfer-Encoding field), and body writes are passed
through to the transport unchanged. -/
theorem claim_C3 (r : Request Fresh) (s : Request Streaming) (n : Nat)
    (hm : ¬(r.method = .get ∨ r.method = .head))
    (hcl : r.headers.getContentLength = some n)
    (hstart : r.start = .ok s) :
    (∃ st, s.body = .sizedWriter st n) ∧
    s.headers = r.headers ∧
    s.headers.hasField "Transfer-Encoding" = r.headers.hasField "Transfer-Encoding" ∧
    (∀ msg s', s.writeBody msg = .ok s' →
       s'.body.intoInner.write = s.body.intoInner.write ++ msg) := by
  unfold Request.start at hstart
  cases hw1 : r.body.write r.requestLine with
  | error e =>
    rw [hw1] at hstart
    simp [Bind.bind, Except.bind] at hstart
  | ok body1 =>
    rw [hw1] at hstart
    simp only [Bind.bind, Except.bind] at hstart
    rw [if_neg hm] at hstart
    rw [hcl] at hstart
    simp only [] at hstart
    split at hstart
    · exact absurd hstart (by simp)
    case h_2 body2 hw2 =>
      injection hstart with hs
      subst hs
      refine ⟨⟨body2.intoInner, rfl⟩, rfl, rfl, ?_⟩
      intro msg s' hw
      unfold Request.writeBody HttpWriter.write at hw
      simp only [Except.map] at hw
      cases hw3 : body2.intoInner.writeAll msg with
      | error e => rw [hw3] at hw; exact absurd hw (by simp)
      | ok u =>
        rw [hw3] at hw
        injection hw with hs'
        subst hs'
        simpa using MockStream.writeAll_ok_write hw3

/-- C3 witness: the Sized branch instantiated at a concrete
`POST http://example.dom/submit` request with `Content-Length: 3`. -/
theorem claim_C3_witness :
    ∃ s, Request.start
        { exPostFresh with
          headers := exPostFresh.headers.set "Content-Length" (.contentLength 3) } =
        .ok s ∧
      (∃ st, s.body = .sizedWriter st 3) ∧
      s.headers.hasField "Transfer-Encoding" = false := by
  cases hstart : Request.start
      { exPostFresh with
        headers := exPostFresh.headers.set "Content-Length" (.contentLength 3) } with
  | error e => exact absurd hstart (ne_error_of_isOk (by decide) e)
  | ok s =>
    obtain ⟨hbody, hhdrs, _, _⟩ := claim_C3 _ s 3 (by decide) (by decide) hstart
    refine ⟨s, rfl, hbody, ?_⟩
    rw [hhdrs]
    decide

/-- C5: the Fresh→Streaming transition is all-or-nothing — `start()` makes
exactly two transport writes (request line, then header block); it succeeds
iff the transport admits both, and when a head write fails the I/O failure
itself is returned (so no Streaming request is ever produced alongside a
failure). -/
theorem claim_C5 (r : Request Fresh) (st : MockStream)
    (hb : r.body = .throughWriter st) :
    ((∃ s, r.start = .ok s) ↔
       (st.failAfter = none ∨ ∃ k, st.failAfter = some k ∧ 2 ≤ k)) ∧
    (∀ e, r.start = .error e → e = .io) := by
  obtain ⟨u, v, b, hdrs, m⟩ := r
  simp only at hb
  subst hb
  obtain ⟨w, f⟩ := st
  simp only
  cases f with
  | none =>
    have hok : ∃ s, Request.start
        { url := u, version := v,
          body := .throughWriter { write := w, failAfter := none },
          headers := hdrs, method := m } = .ok s := by
      unfold Request.start
      simp only [HttpWriter.write, MockStream.writeAll, Bind.bind, Except.bind,
        Except.map]
      split
      · exact ⟨_, rfl⟩
      · split
        · exact ⟨_, rfl⟩
        · exact ⟨_, rfl⟩
    refine ⟨⟨fun _ => Or.inl rfl, fun _ => hok⟩, ?_⟩
    intro e he
    obtain ⟨s, hs⟩ := hok
    rw [hs] at he
    exact Except.noConfusion he
  | some k =>
    cases k with
    | zero =>
      have herr : Request.start
          { url := u, version := v,
            body := .throughWriter { write := w, failAfter := some 0 },
            headers := hdrs, method := m } = .error .io := rfl
      refine ⟨⟨?_, ?_⟩, ?_⟩
      · rintro ⟨s, hs⟩
        rw [herr] at hs
        exact Except.noConfusion hs
      · rintro (h | ⟨k', hk', h2⟩)
        · exact absurd h (by simp)
        · injection hk' with hk''
          omega
      · intro e he
        rw [herr] at he
        injection he with h
        exact h.symm
    | succ k' =>
      cases k' with
      | zero =>
        have herr : Request.start
            { url := u, version := v,
              body := .throughWriter { write := w, failAfter := some 1 },
              headers := hdrs, method := m } = .error .io := by
          unfold Request.start
          simp only [HttpWriter.write, MockStream.writeAll, Bind.bind,
            Except.bind, Except.map]
          split
          · rfl
          · split
            · rfl
            · rfl
        refine ⟨⟨?_, ?_⟩, ?_⟩
        · rintro ⟨s, hs⟩
          rw [herr] at hs
          exact Except.noConfusion hs
        · rintro (h | ⟨k', hk', h2⟩)
          · exact absurd h (by simp)
          · injection hk' with hk''
            omega
        · intro e he
          rw [herr] at he
          injection he with h
          exact h.symm
      | succ k'' =>
        have hok : ∃ s, Request.start
            { url := u, version := v,
              body := .throughWriter { write := w, failAfter := some (k'' + 2) },
              headers := hdrs, method := m } = .ok s := by
          unfold Request.start
          simp only [HttpWriter.write, MockStream.writeAll, Bind.bind,
            Except.bind, Except.map]
          split
          · exact ⟨_, rfl⟩
          · split
            · exact ⟨_, rfl⟩
            · exact ⟨_, rfl⟩
        refine ⟨⟨fun _ => Or.inr ⟨k'' + 2, rfl, by omega⟩, fun _ => hok⟩, ?_⟩
        intro e he
        obtain ⟨s, hs⟩ := hok
        rw [hs] at he
        exact Except.noConfusion he

/-- C5 witness: over a transport that rejects its first write, `start()` of
the concrete `GET http://example.dom/` request returns the I/O failure. -/
theorem claim_C5_witness : Request.start c5Fresh = .error .io := by
  obtain ⟨hiff, herr⟩ :=
    claim_C5 c5Fresh { write := "", failAfter := some 0 } rfl
  cases hstart : Request.start c5Fresh with
  | ok s =>
    rcases hiff.mp ⟨s, hstart⟩ with h | ⟨k, hk, h2⟩
    · exact Option.noConfusion h
    · injection hk with hk'
      omega
  | error e =>
    rw [herr e hstart]

/-- C8: the head emitted by `start()` is exactly the request line
`METHOD SP path[?query] SP VERSION CRLF` followed by the headers — each
serialized as `Name: value CRLF` in insertion order — and a terminating
blank CRLF line; the constructor sets a Host header from the host and port
resolved from the URL. -/
theorem claim_C8 (m : Method) (u : Url) (host : String) (port : Nat)
    (r : Request Fresh) (s : Request Streaming)
    (hhp : getHostAndPort u = .ok (host, port))
    (hcons : Request.withConnector m u {} = .ok r)
    (hstart : r.start = .ok s) :
    r.headers = Headers.new.setHost host (some port) ∧
    s.body.intoInner.write = r.requestLine ++ (s.headers.toS ++ LINE_ENDING) ∧
    s.headers.toS = String.join (s.headers.entries.map
      (fun e => e.1 ++ ": " ++ e.2.toS ++ LINE_ENDING)) := by
  unfold Request.withConnector at hcons
  rw [hhp] at hcons
  simp only [Bind.bind, Except.bind] at hcons
  injection hcons with hr
  subst hr
  unfold Request.start at hstart
  simp only [HttpWriter.write, MockStream.writeAll, Bind.bind, Except.bind,
    Except.map] at hstart
  split at hstart
  · injection hstart with hs
    subst hs
    exact ⟨rfl, rfl, rfl⟩
  · split at hstart
    · injection hstart with hs
      subst hs
      exact ⟨rfl, rfl, rfl⟩
    · injection hstart with hs
      subst hs
      exact ⟨rfl, rfl, rfl⟩

/-- C8 witness: the concrete scenario — `GET http://example.dom/` yields the
head `GET / HTTP/1.1 CRLF Host: example.dom CRLF CRLF`. -/
theorem claim_C8_witness :
    (∃ s, exGetFresh.start = .ok s ∧
      s.body.intoInner.write = exGetFresh.requestLine ++ (s.headers.toS ++ LINE_ENDING)) ∧
    exGetFresh.start.map (fun s => s.body.intoInner.write) =
      .ok ("GET / HTTP/1.1" ++ LINE_ENDING ++ "Host: example.dom" ++
        LINE_ENDING ++ LINE_ENDING) := by
  refine ⟨?_, rfl⟩
  cases hstart : exGetFresh.start with
  | error e => exact absurd hstart (ne_error_of_isOk (by decide) e)
  | ok s =>
    obtain ⟨_, h2, _⟩ := claim_C8 .get exUrl "example.dom" 80 exGetFresh s
      rfl rfl hstart
    exact ⟨s, rfl, h2⟩

/-- C4: the downcast identity law — for a boxed `HttpMessage` whose
underlying concrete type is X, `is::<X>` is true and `downcast::<X>`
succeeds with the original value unchanged; for the other concrete type
Y ≠ X, `is::<Y>` is false and `downcast::<Y>` fails, returning the original
boxed value intact (total functions: no crash). -/
theorem claim_C4 :
    ∀ (m1 : Http11Message) (m2 : Http2Message),
      (BoxHttpMessage.h11 m1).isType .http11 = true ∧
      (BoxHttpMessage.h11 m1).downcastH11 = .ok m1 ∧
      (BoxHttpMessage.h11 m1).isType .http2 = false ∧
      (BoxHttpMessage.h11 m1).downcastH2 = .error (.h11 m1) ∧
      (BoxHttpMessage.h2 m2).isType .http2 = true ∧
      (BoxHttpMessage.h2 m2).downcastH2 = .ok m2 ∧
      (BoxHttpMessage.h2 m2).isType .http11 = false ∧
      (BoxHttpMessage.h2 m2).downcastH11 = .error (.h2 m2) := by
  intro m1 m2
  exact ⟨rfl, rfl, rfl, rfl, rfl, rfl, rfl, rfl⟩

/-- C6: `Http2Response` construction extracts the numeric status from the
status pseudo-header, copies exactly the raw headers whose name's first
byte is not `:` into the Headers collection — every entry of the result is
a single-valued raw entry taken from such a header, with no coalescing of
repeated names — and wraps the fully received body in an in-memory
seekable cursor positioned at 0. -/
theorem claim_C6 (client : Http2Client) (sid : StreamId)
    (resp : RawHttp2Response) (code : Nat) (res : Http2Response)
    (hresp : client.getResponse sid = .ok resp)
    (hstatus : resp.statusCode = some code)
    (hnames : resp.headers.any (fun h => h.1.isEmpty) = false)
    (hnew : Http2Response.new client sid = .returns res) :
    res.status = code ∧ res.streamId = sid ∧
    res.body = { inner := resp.body, pos := 0 } ∧
    (∀ h ∈ resp.headers, h.1.front ≠ ':' → res.headers.hasField h.1 = true) ∧
    (∀ e ∈ res.headers.entries, entryFrom resp.headers e) := by
  unfold Http2Response.new at hnew
  split at hnew
  · exact Exec.noConfusion hnew
  case h_2 r0 heq =>
    rw [hresp] at heq
    injection heq with heq'
    subst heq'
    split at hnew
    case h_1 hsc =>
      rw [hstatus] at hsc
      exact Option.noConfusion hsc
    case h_2 code0 hsc =>
      rw [hstatus] at hsc
      injection hsc with hsc'
      subst hsc'
      split at hnew
      case isTrue hemp =>
        rw [hnames] at hemp
        exact absurd hemp (by simp)
      case isFalse hemp =>
        injection hnew with hres
        subst hres
        refine ⟨rfl, rfl, rfl, ?_, ?_⟩
        · intro h hmem hfront
          exact Headers.hasField_foldl_setRaw_mem _
            (List.mem_filter.mpr ⟨hmem, decide_eq_true hfront⟩)
        · intro e he
          refine Headers.entryFrom_foldl
            (fun e h => absurd h (List.not_mem_nil e)) ?_ e he
          intro p hp
          obtain ⟨hp1, hp2⟩ := List.mem_filter.mp hp
          exact ⟨hp1, of_decide_eq_true hp2⟩

/-- C6 witness: construction from the concrete scripted response — status
200, pseudo-headers dropped, the repeated ordinary header kept as a single
raw entry, and the body wrapped at position 0. -/
theorem claim_C6_witness :
    Http2Response.new exHttp2Client 1 = .returns exHttp2Res ∧
    exHttp2Res.status = 200 ∧ exHttp2Res.streamId = 1 ∧
    exHttp2Res.body = { inner := "hello", pos := 0 } ∧
    exHttp2Res.headers.hasField "x-header" = true := by
  have h := claim_C6 exHttp2Client 1 exRawResp 200 exHttp2Res
    (by decide) (by decide) (by decide) (by decide)
  exact ⟨by decide, h.1, h.2.1, h.2.2.1, h.2.2.2.1 ("x-header", "v1")
    (by decide) (by decide)⟩

/-- C7 (amended): transport errors in the HTTP/2 adapter are not returned as
failure results — `Http2Request::start` and `Http2Response::new` `unwrap`
the session result, so a transport failure panics instead. -/
theorem claim_C7 (r : Http2Request Fresh) (c : Http2Client) (sid : StreamId)
    (h1 : r.client.requestError = true)
    (h2 : c.responses.lookup sid = none) :
    Http2Request.start r = .panicked ∧ Http2Response.new c sid = .panicked := by
  constructor
  · simp only [Http2Request.start, Http2Client.request, h1, if_true]
  · unfold Http2Response.new Http2Client.getResponse
    rw [h2]

/-- C7 counterexample: the claim as stated is false — at a session whose
`request` fails and a session with no response for stream 1, both HTTP/2
operations panic; neither surfaces the transport error as a failure result
of the operation. -/
theorem claim_C7_counterexample :
    Http2Request.start c7Fresh = .panicked ∧
    Http2Response.new {} 1 = .panicked :=
  ⟨rfl, rfl⟩

/-- C7 witness: the amended claim instantiated at the failing session and
the empty-response session. -/
theorem claim_C7_witness :
    Http2Request.start c7Fresh = .panicked ∧
    Http2Response.new { responses := [] } 1 = .panicked :=
  claim_C7 c7Fresh { responses := [] } 1 rfl rfl

/-- C9: `Http2Request::start` passes an empty extra-headers list to the
session's `request` call — the one call it makes carries only the method
bytes and the URL-derived path, never the request's Headers field, which is
carried over to the Streaming request untransmitted. -/
theorem claim_C9 (r : Http2Request Fresh) (s : Http2Request Streaming)
    (h : Http2Request.start r = .returns (.ok s)) :
    s.client.calls = r.client.calls ++ [(r.method.toS, r.url.requestUri, [])] ∧
    s.headers = r.headers ∧ s.method = r.method ∧ s.url = r.url := by
  simp only [Http2Request.start] at h
  split at h
  · exact Exec.noConfusion h
  case h_2 sid client heq =>
    injection h with h'
    injection h' with h''
    subst h''
    unfold Http2Client.request at heq
    split at heq
    · exact Except.noConfusion heq
    · injection heq with hp
      injection hp with hp1 hp2
      subst hp2
      exact ⟨rfl, rfl, rfl, rfl⟩

/-- C9 witness: the concrete fresh HTTP/2 request carrying the caller-set
`x-custom` header — the session call records empty extras and the header
survives only on the request value. -/
theorem claim_C9_witness :
    exHttp2Streaming.client.calls = exHttp2Fresh.client.calls ++
      [(exHttp2Fresh.method.toS, exHttp2Fresh.url.requestUri, [])] ∧
    exHttp2Streaming.headers = exHttp2Fresh.headers ∧
    exHttp2Streaming.method = exHttp2Fresh.method ∧
    exHttp2Streaming.url = exHttp2Fresh.url :=
  claim_C9 exHttp2Fresh exHttp2Streaming (by decide)

end Hyper
